import Mathlib

/-!
Verification of the GPU frame readback pipeline of bevy_render_to_image.

Shallow embedding of the relevant code:
  * src/plugin.rs: prepare_asset (export-buffer preparation), get_image
    (async readback, row depadding);
  * src/ndi.rs: ndi_send_buffer (rate-limited NDI dispatch loop) and the
    NDIExportRateLimiter resource.

Machine integers are modelled as Nat with explicit reduction mod 2^32 at the
places where the Rust code performs u32 arithmetic that can wrap.  Panics
(unwrap on Err/None) are modelled by explicit panic constructors of result
types.  External collaborators (the wgpu backend map result, the bevy image
table, the NDI SDK frame builder) enter as explicit parameters.
-/

set_option maxRecDepth 100000

/-- wgpu COPY_BYTES_PER_ROW_ALIGNMENT, the device row-alignment constant
used by RenderDevice.align_copy_bytes_per_row. -/
def COPY_ALIGN : Nat := 256

/-- 2^32, the modulus of Rust u32 arithmetic. -/
def U32 : Nat := 4294967296

/-- RenderDevice.align_copy_bytes_per_row from bevy (called at
src/plugin.rs line 61): rounds a row byte count up to the next multiple of
the 256-byte copy alignment.  Computed in usize (64-bit, no wrap for u32
inputs). -/
def alignCopyBytesPerRow (rowBytes : Nat) : Nat :=
  rowBytes + (COPY_ALIGN - rowBytes % COPY_ALIGN) % COPY_ALIGN

/-- The render-world view of a source texture that prepare_asset reads:
its extent and the block layout of its texture format
(block_dimensions().0 and block_size(None).unwrap() in the code). -/
structure GpuImage where
  width : Nat
  height : Nat
  blockDimX : Nat
  blockSize : Nat
deriving DecidableEq

/-- GpuImageExportSource from src/plugin.rs lines 33-39: the prepared
export buffer.  bufferSize is the size passed to create_buffer at line 68,
computed as the u32 product height * padded_bytes_per_row (hence mod 2^32)
cast to u64. -/
structure GpuImageExportSource where
  bufferSize : Nat
  sourceWidth : Nat
  sourceHeight : Nat
  bytesPerRow : Nat
  paddedBytesPerRow : Nat
deriving DecidableEq

/-- Outcome of prepare_asset: the code either panics (unwrap at line 54
when the image table has no entry for the handle) or returns Ok with the
prepared buffer.  No error-return path exists in the code. -/
inductive PrepareResult where
  | panicked : PrepareResult
  | ok : GpuImageExportSource → PrepareResult
deriving DecidableEq

/-- prepare_asset from src/plugin.rs lines 50-77.  The images argument is
the external image table lookup result for the source handle
(images.get(and extracted_asset.0)); none models a missing texture, on
which the code unwraps and panics.  bytes_per_row is the u32 product
(width / block_dimensions.0) * block_size, padded_bytes_per_row is
align_copy_bytes_per_row cast back to u32, and the buffer size is the u32
product height * padded_bytes_per_row. -/
def prepareAsset (image : Option GpuImage) : PrepareResult :=
  match image with
  | none => PrepareResult.panicked
  | some gi =>
    let bytesPerRow := gi.width / gi.blockDimX * gi.blockSize % U32
    let paddedBytesPerRow := alignCopyBytesPerRow bytesPerRow % U32
    PrepareResult.ok
      { bufferSize := gi.height * paddedBytesPerRow % U32
        sourceWidth := gi.width
        sourceHeight := gi.height
        bytesPerRow := bytesPerRow
        paddedBytesPerRow := paddedBytesPerRow }

/-- Fuel-indexed body of Rust slice::chunks: splits a byte buffer into
consecutive chunks of n bytes, the last chunk possibly shorter.  The fuel
argument only bounds recursion depth; chunksList supplies enough fuel for
it never to run out. -/
def chunksAux (n : Nat) : List Nat → Nat → List (List Nat)
  | _, 0 => []
  | l, fuel + 1 =>
    if n = 0 ∨ l = [] then []
    else l.take n :: chunksAux n (l.drop n) fuel

/-- Rust image_bytes.chunks(padded_bytes_per_row) at src/plugin.rs
line 155: the chunk decomposition of the buffer. -/
def chunksList (n : Nat) (l : List Nat) : List (List Nat) :=
  chunksAux n l l.length

/-- The row-depadding step of get_image, src/plugin.rs lines 151-160: when
bytes_per_row equals padded_bytes_per_row the raw buffer is used as is;
otherwise each padded chunk contributes its first bytes_per_row bytes, in
order. -/
def depad (bytesPerRow paddedBytesPerRow : Nat) (raw : List Nat) : List Nat :=
  if bytesPerRow = paddedBytesPerRow then raw
  else ((chunksList paddedBytesPerRow raw).map (List.take bytesPerRow)).flatten

/-- The Image value built by get_image at src/plugin.rs lines 163-181:
its data plus the extent recorded in the texture descriptor.  The format
is the fixed Rgba8UnormSrgb and carries no information. -/
structure ImageOut where
  data : List Nat
  width : Nat
  height : Nat
deriving DecidableEq

/-- Outcome of get_image: the code either panics (the double unwrap at
src/plugin.rs line 139 when the backend reports a mapping failure) or
returns an Option of an Image. -/
inductive ReadResult where
  | panicked : ReadResult
  | ok : Option ImageOut → ReadResult
deriving DecidableEq

/-- get_image from src/plugin.rs lines 121-185.  source is the asset-table
lookup result (sources.get(source_handle.id())); mapResult is the result
the backend delivers to the map_buffer callback; mapped is the byte
content of the mapped range.  When the lookup fails the function returns
None; when the map result is an error the unwrap at line 139 panics;
otherwise the mapped bytes are depadded and wrapped in an Image of the
recorded source extent. -/
def getImage (source : Option GpuImageExportSource)
    (mapResult : Except String Unit) (mapped : List Nat) : ReadResult :=
  match source with
  | none => ReadResult.ok none
  | some g =>
    match mapResult with
    | Except.error _ => ReadResult.panicked
    | Except.ok _ =>
      ReadResult.ok (some
        { data := depad g.bytesPerRow g.paddedBytesPerRow mapped
          width := g.sourceWidth
          height := g.sourceHeight })

-- ---------------------------------------------------------------------------
-- Basic lemmas about the alignment computation.
-- ---------------------------------------------------------------------------

theorem le_alignCopyBytesPerRow (r : Nat) : r ≤ alignCopyBytesPerRow r :=
  Nat.le_add_right r _

theorem alignCopyBytesPerRow_mod (r : Nat) :
    alignCopyBytesPerRow r % COPY_ALIGN = 0 := by
  unfold alignCopyBytesPerRow COPY_ALIGN
  omega

theorem alignCopyBytesPerRow_min (r m : Nat) (hm : m % COPY_ALIGN = 0)
    (hr : r ≤ m) : alignCopyBytesPerRow r ≤ m := by
  unfold alignCopyBytesPerRow COPY_ALIGN at *
  omega

-- ---------------------------------------------------------------------------
-- Lemmas about the chunk decomposition and depadding.
-- ---------------------------------------------------------------------------

theorem chunksAux_nil (n fuel : Nat) : chunksAux n [] fuel = [] := by
  cases fuel <;> simp [chunksAux]

/-- With any sufficient fuel, the chunk decomposition of a concatenation of
rows of length n is exactly that list of rows. -/
theorem chunksAux_flatten (n : Nat) (hn : 0 < n) (rows : List (List Nat)) :
    ∀ fuel, rows.flatten.length ≤ fuel →
      (∀ r ∈ rows, r.length = n) → chunksAux n rows.flatten fuel = rows := by
  induction rows with
  | nil => intro fuel _ _; exact chunksAux_nil n fuel
  | cons r rest ih =>
    intro fuel hfuel hrow
    have hr : r.length = n := hrow r (List.mem_cons_self r rest)
    have hrest : ∀ x ∈ rest, x.length = n :=
      fun x hx => hrow x (List.mem_cons_of_mem r hx)
    have hlen : (r :: rest).flatten.length = n + rest.flatten.length := by
      simp [hr]
    cases fuel with
    | zero =>
      exfalso
      omega
    | succ f =>
      have hne : ¬(n = 0 ∨ (r :: rest).flatten = []) := by
        rintro (h0 | hemp)
        · omega
        · rw [hemp] at hlen
          simp at hlen
          omega
      show chunksAux n (r :: rest).flatten (f + 1) = r :: rest
      rw [chunksAux, if_neg hne]
      rw [List.flatten_cons, List.take_left' hr, List.drop_left' hr]
      have : rest.flatten.length ≤ f := by omega
      rw [ih f this hrest]

theorem chunksList_flatten (n : Nat) (hn : 0 < n) (rows : List (List Nat))
    (hrow : ∀ r ∈ rows, r.length = n) :
    chunksList n rows.flatten = rows :=
  chunksAux_flatten n hn rows rows.flatten.length (Nat.le_refl _) hrow

/-- Depadding a buffer made of rows of length paddedBytesPerRow keeps the
first bytesPerRow bytes of each row, in row order.  Covers both branches
of the code: the pass-through branch when the two row sizes agree, and the
chunked copy otherwise. -/
theorem depad_flatten (bpr padded : Nat) (rows : List (List Nat))
    (hrow : ∀ r ∈ rows, r.length = padded) (hle : bpr ≤ padded) :
    depad bpr padded rows.flatten = (rows.map (List.take bpr)).flatten := by
  unfold depad
  by_cases heq : bpr = padded
  · rw [if_pos heq]
    have : rows.map (List.take bpr) = rows := by
      conv_rhs => rw [← List.map_id rows]
      apply List.map_congr_left
      intro r hr
      rw [heq, ← hrow r hr]
      simp
    rw [this]
  · rw [if_neg heq]
    have hpos : 0 < padded := by
      rcases Nat.eq_zero_or_pos padded with h0 | h
      · omega
      · exact h
    rw [chunksList_flatten padded hpos rows hrow]

/-- The length of the depadded buffer of a row decomposition. -/
theorem depad_flatten_length (bpr padded : Nat) (rows : List (List Nat))
    (hrow : ∀ r ∈ rows, r.length = padded) (hle : bpr ≤ padded) :
    (depad bpr padded rows.flatten).length = bpr * rows.length := by
  rw [depad_flatten bpr padded rows hrow hle]
  induction rows with
  | nil => simp
  | cons r rest ih =>
    have hr : r.length = padded := hrow r (List.mem_cons_self r rest)
    have hrest : ∀ x ∈ rest, x.length = padded :=
      fun x hx => hrow x (List.mem_cons_of_mem r hx)
    simp only [List.map_cons, List.flatten_cons, List.length_append,
      List.length_take, ih hrest, hr, List.length_cons]
    rw [Nat.min_eq_left hle, Nat.mul_succ]
    omega

theorem chunksAux_zero (l : List Nat) (fuel : Nat) : chunksAux 0 l fuel = [] := by
  cases fuel with
  | zero => rfl
  | succ f => simp [chunksAux]

/-- Totality of the chunk decomposition: when the buffer length is an exact
multiple of the chunk size, every chunk has exactly that size. -/
theorem chunksAux_length_eq (n : Nat) (hn : 0 < n) (height : Nat) :
    ∀ (raw : List Nat) (fuel : Nat), raw.length = n * height →
      raw.length ≤ fuel → ∀ c ∈ chunksAux n raw fuel, c.length = n := by
  induction height with
  | zero =>
    intro raw fuel hlen hfuel c hc
    have hraw : raw = [] := List.length_eq_zero.mp (by omega)
    rw [hraw, chunksAux_nil] at hc
    simp at hc
  | succ h ih =>
    intro raw fuel hlen hfuel c hc
    have hnle : n ≤ raw.length := by
      rw [hlen, Nat.mul_succ]
      omega
    have hraw : 0 < raw.length := by omega
    cases fuel with
    | zero => omega
    | succ f =>
      have hne : ¬(n = 0 ∨ raw = []) := by
        rintro (h0 | hemp)
        · omega
        · rw [hemp] at hraw
          simp at hraw
      rw [chunksAux, if_neg hne] at hc
      rcases List.mem_cons.mp hc with hhead | htail
      · rw [hhead, List.length_take]
        omega
      · apply ih (raw.drop n) f _ _ c htail
        · rw [List.length_drop, hlen, Nat.mul_succ]
          omega
        · rw [List.length_drop]
          omega

theorem chunksList_length_eq (n height : Nat) (raw : List Nat)
    (hlen : raw.length = n * height) :
    ∀ c ∈ chunksList n raw, c.length = n := by
  rcases Nat.eq_zero_or_pos n with h0 | hpos
  · rw [h0, chunksList, chunksAux_zero]
    simp
  · exact chunksAux_length_eq n hpos height raw raw.length hlen (Nat.le_refl _)

-- ---------------------------------------------------------------------------
-- Synthetic padded buffers for the round-trip property.
-- ---------------------------------------------------------------------------

/-- A synthetic padded buffer: each tightly packed row is extended with its
own filler bytes, and the padded rows are concatenated. -/
def padRows (rows fills : List (List Nat)) : List Nat :=
  (List.zipWith (fun r f => r ++ f) rows fills).flatten

theorem zipWith_append_length (bpr padded : Nat) (hle : bpr ≤ padded) :
    ∀ (rows fills : List (List Nat)), (∀ r ∈ rows, r.length = bpr) →
      (∀ f ∈ fills, f.length = padded - bpr) →
      ∀ p ∈ List.zipWith (fun r f => r ++ f) rows fills, p.length = padded := by
  intro rows
  induction rows with
  | nil => intro fills _ _ p hp; simp at hp
  | cons r rest ih =>
    intro fills hr hf p hp
    cases fills with
    | nil => simp at hp
    | cons f frest =>
      rcases List.mem_cons.mp hp with hhead | htail
      · have h1 : r.length = bpr := hr r (List.mem_cons_self r rest)
        have h2 : f.length = padded - bpr := hf f (List.mem_cons_self f frest)
        rw [hhead, List.length_append, h1, h2]
        omega
      · exact ih frest (fun x hx => hr x (List.mem_cons_of_mem r hx))
          (fun x hx => hf x (List.mem_cons_of_mem f hx)) p htail

theorem zipWith_append_take (bpr : Nat) :
    ∀ (rows fills : List (List Nat)), (∀ r ∈ rows, r.length = bpr) →
      rows.length = fills.length →
      (List.zipWith (fun r f => r ++ f) rows fills).map (List.take bpr) = rows := by
  intro rows
  induction rows with
  | nil => intro fills _ _; simp
  | cons r rest ih =>
    intro fills hr hlen
    cases fills with
    | nil => simp at hlen
    | cons f frest =>
      simp only [List.zipWith_cons_cons, List.map_cons]
      have h1 : r.length = bpr := hr r (List.mem_cons_self r rest)
      rw [List.take_left' h1,
        ih frest (fun x hx => hr x (List.mem_cons_of_mem r hx)) (by simpa using hlen)]

-- ---------------------------------------------------------------------------
-- The bevy repeating Timer (NDIExportRateLimiter) and the NDI dispatch loop.
-- ---------------------------------------------------------------------------

/-- A bevy Timer in TimerMode::Repeating, as held by the
NDIExportRateLimiter resource (src/ndi.rs lines 109-110, 134-137).  Times
are in nanoseconds (bevy Duration precision).  tick adds the frame delta;
when the accumulated time reaches the duration the timer records how many
whole intervals elapsed and wraps the remainder, exactly as bevy Timer
does for an unpaused repeating timer. -/
structure RTimer where
  duration : Nat
  elapsed : Nat
  timesFinishedThisTick : Nat
deriving DecidableEq

def RTimer.tick (t : RTimer) (delta : Nat) : RTimer :=
  let e := t.elapsed + delta
  if t.duration ≤ e then
    { t with elapsed := e % t.duration, timesFinishedThisTick := e / t.duration }
  else
    { t with elapsed := e, timesFinishedThisTick := 0 }

def RTimer.justFinished (t : RTimer) : Bool :=
  decide (0 < t.timesFinishedThisTick)

theorem RTimer.tick_elapsed (t : RTimer) (delta : Nat) :
    (t.tick delta).elapsed = (t.elapsed + delta) % t.duration := by
  unfold RTimer.tick
  by_cases h : t.duration ≤ t.elapsed + delta
  · simp [h]
  · simp only [h, if_false]
    rw [Nat.mod_eq_of_lt (show t.elapsed + delta < t.duration by omega)]

theorem RTimer.tick_times (t : RTimer) (delta : Nat) :
    (t.tick delta).timesFinishedThisTick = (t.elapsed + delta) / t.duration := by
  unfold RTimer.tick
  by_cases h : t.duration ≤ t.elapsed + delta
  · simp [h]
  · simp only [h, if_false]
    rw [Nat.div_eq_of_lt (show t.elapsed + delta < t.duration by omega)]

theorem RTimer.tick_duration (t : RTimer) (delta : Nat) :
    (t.tick delta).duration = t.duration := by
  unfold RTimer.tick
  by_cases h : t.duration ≤ t.elapsed + delta <;> simp [h]

/-- The per-binding data that one iteration of the loop in ndi_send_buffer
consumes: the result of get_image for the binding's source handle (already
an Option of an image) and the outcome the external NDI SDK frame builder
returns for this frame (none means build succeeds, some msg is the build
error). -/
structure BindingStep where
  img : Option ImageOut
  buildErr : Option String
deriving DecidableEq

/-- Observable actions of one invocation of ndi_send_buffer, in order. -/
inductive NdiAction where
  | savedDebugPng : NdiAction
  | logBuildFailure : String → NdiAction
  | sent : Nat → Nat → List Nat → NdiAction
deriving DecidableEq

/-- The for loop of ndi_send_buffer, src/ndi.rs lines 79-106.  A binding
whose source is not ready is skipped.  Otherwise a debug png is saved, the
NDI frame is built; on build failure the error is logged and the function
RETURNS (the remaining bindings are not processed); on success the frame
is sent through the sink. -/
def ndiLoop : List BindingStep → List NdiAction
  | [] => []
  | s :: rest =>
    match s.img with
    | none => ndiLoop rest
    | some img =>
      NdiAction.savedDebugPng ::
        match s.buildErr with
        | some e => [NdiAction.logBuildFailure e]
        | none => NdiAction.sent img.width img.height img.data :: ndiLoop rest

/-- ndi_send_buffer, src/ndi.rs lines 65-107: tick the shared rate-limit
timer with the frame delta; when the interval has not just elapsed return
immediately with no actions; otherwise run the dispatch loop over all
bindings. -/
def ndiSendBuffer (timer : RTimer) (delta : Nat) (steps : List BindingStep) :
    RTimer × List NdiAction :=
  let t := timer.tick delta
  if t.justFinished then (t, ndiLoop steps) else (t, [])

/-- Number of whole rate-limit intervals the timer completes over a
sequence of frame deltas. -/
def finishCount (t : RTimer) : List Nat → Nat
  | [] => 0
  | d :: ds => (t.tick d).timesFinishedThisTick + finishCount (t.tick d) ds

/-- Number of invocations of ndi_send_buffer whose gate opens (the timer
just finished) over a sequence of frame deltas. -/
def dispatchCount (t : RTimer) : List Nat → Nat
  | [] => 0
  | d :: ds =>
    (if (t.tick d).justFinished then 1 else 0) + dispatchCount (t.tick d) ds

/-- The render-world state relevant to the NDI export system: the single
NDIExportRateLimiter resource and the extracted consumer bindings. -/
structure NdiWorld where
  timer : RTimer
  bindings : List BindingStep
deriving DecidableEq

/-- The timer state that gates binding i's dispatch in ndi_send_buffer.
In the code this is the one shared NDIExportRateLimiter resource,
whatever the binding index. -/
def gateTimer (w : NdiWorld) (_i : Nat) : RTimer :=
  w.timer

/-- The state update ndi_send_buffer performs on the rate-limiter when it
evaluates the gate (timer.0.tick(time.delta()) at src/ndi.rs line 72),
in particular when it evaluates it for any given binding. -/
def tickWorld (w : NdiWorld) (delta : Nat) : NdiWorld :=
  { w with timer := w.timer.tick delta }

theorem div_add_mod_div (a b n : Nat) (hn : 0 < n) :
    a / n + (a % n + b) / n = (a + b) / n := by
  have hdm : a % n + n * (a / n) = a := Nat.mod_add_div a n
  conv_rhs => rw [show a + b = a % n + b + n * (a / n) by omega]
  rw [Nat.add_mul_div_left _ _ hn]
  omega

/-- Over any sequence of frame deltas, the total number of whole intervals
a repeating timer completes is the accumulated time divided by the
interval. -/
theorem finishCount_eq (ds : List Nat) : ∀ (t : RTimer), 0 < t.duration →
    t.elapsed < t.duration →
    finishCount t ds = (t.elapsed + ds.sum) / t.duration := by
  induction ds with
  | nil =>
    intro t hd he
    simp [finishCount, Nat.div_eq_of_lt he]
  | cons d ds ih =>
    intro t hd he
    have hdur : (t.tick d).duration = t.duration := RTimer.tick_duration t d
    have hel : (t.tick d).elapsed = (t.elapsed + d) % t.duration :=
      RTimer.tick_elapsed t d
    have hlt : (t.tick d).elapsed < (t.tick d).duration := by
      rw [hel, hdur]
      exact Nat.mod_lt _ hd
    simp only [finishCount, RTimer.tick_times,
      ih (t.tick d) (by omega) hlt, hel, hdur, List.sum_cons]
    rw [← Nat.add_assoc]
    exact div_add_mod_div _ _ _ hd

theorem dispatchCount_le_finishCount (ds : List Nat) :
    ∀ (t : RTimer), dispatchCount t ds ≤ finishCount t ds := by
  induction ds with
  | nil => intro t; simp [dispatchCount, finishCount]
  | cons d ds ih =>
    intro t
    simp only [dispatchCount, finishCount]
    have h1 : (if (t.tick d).justFinished then 1 else 0) ≤
        (t.tick d).timesFinishedThisTick := by
      by_cases hb : 0 < (t.tick d).timesFinishedThisTick
      · simp only [RTimer.justFinished, hb, decide_True, if_true]
        omega
      · simp [RTimer.justFinished, hb]
    exact Nat.add_le_add h1 (ih (t.tick d))

-- ---------------------------------------------------------------------------
-- Concrete inputs used by the claims.
-- ---------------------------------------------------------------------------

/-- The raw rows of the 4x4 RGBA scenario: row r holds r in its first 16
bytes, then 240 bytes of 255 alignment padding. -/
def exRows : List (List Nat) :=
  (List.range 4).map (fun r => List.replicate 16 r ++ List.replicate 240 255)

/-- The tightly packed 64-byte result expected for the scenario. -/
def exTight : List Nat :=
  ((List.range 4).map (fun r => List.replicate 16 r)).flatten

/-- A prepared export source for the 4x4 scenario (bytes_per_row 16,
padded_bytes_per_row 256). -/
def prep0 : GpuImageExportSource :=
  { bufferSize := 1024
    sourceWidth := 4
    sourceHeight := 4
    bytesPerRow := 16
    paddedBytesPerRow := 256 }

/-- The source texture of the 4x4 scenario: 4x4, Rgba8UnormSrgb block
layout (1x1 blocks of 4 bytes). -/
def gi0 : GpuImage := { width := 4, height := 4, blockDimX := 1, blockSize := 4 }

def imgA : ImageOut := { data := List.replicate 64 0, width := 4, height := 4 }

def stepFail : BindingStep := { img := some imgA, buildErr := some "bad frame" }

def stepOk : BindingStep := { img := some imgA, buildErr := none }

def timer0 : RTimer :=
  { duration := 1000000000, elapsed := 0, timesFinishedThisTick := 0 }

def w0 : NdiWorld := { timer := timer0, bindings := [stepFail, stepOk] }

-- ---------------------------------------------------------------------------
-- Claim theorems.
-- ---------------------------------------------------------------------------

/-- C1: for every raw buffer that decomposes into height consecutive rows
of padded_bytes_per_row bytes, with bytes_per_row at most
padded_bytes_per_row, the depadding step of get_image produces the
concatenation, in row order, of the first bytes_per_row bytes of each
row, and the output length is exactly bytes_per_row times height; in
particular the 4x4 scenario (height 4, bytes_per_row 16,
padded_bytes_per_row 256, row r holding r in its first 16 bytes and 0xFF
padding) depads to the expected tightly packed 64-byte buffer. -/
theorem depad_rows_spec (bpr padded : Nat) (rows : List (List Nat))
    (hrow : ∀ r ∈ rows, r.length = padded) (hle : bpr ≤ padded) :
    depad bpr padded rows.flatten = (rows.map (List.take bpr)).flatten ∧
    (depad bpr padded rows.flatten).length = bpr * rows.length ∧
    depad 16 256 exRows.flatten = exTight := by
  refine ⟨depad_flatten bpr padded rows hrow hle,
    depad_flatten_length bpr padded rows hrow hle, ?_⟩
  have h := depad_flatten 16 256 exRows (by decide) (by decide)
  rw [h]
  decide

/-- C1 witness: the theorem applied to the 4x4 scenario rows. -/
theorem depad_rows_spec_witness :
    (∀ r ∈ exRows, r.length = 256) ∧ 16 ≤ 256 ∧
    depad 16 256 exRows.flatten = (exRows.map (List.take 16)).flatten ∧
    (depad 16 256 exRows.flatten).length = 16 * exRows.length :=
  ⟨by decide, by decide, (depad_rows_spec 16 256 exRows (by decide) (by decide)).1,
    (depad_rows_spec 16 256 exRows (by decide) (by decide)).2.1⟩

/-- C5: round-trip — padding each tightly packed row with arbitrary filler
bytes up to padded_bytes_per_row and then depadding as in get_image
reconstructs the original tightly packed bytes exactly. -/
theorem depad_padRows_roundtrip (bpr padded : Nat) (rows fills : List (List Nat))
    (hr : ∀ r ∈ rows, r.length = bpr)
    (hf : ∀ f ∈ fills, f.length = padded - bpr)
    (hlen : rows.length = fills.length) (hle : bpr ≤ padded) :
    depad bpr padded (padRows rows fills) = rows.flatten := by
  unfold padRows
  rw [depad_flatten bpr padded _
      (zipWith_append_length bpr padded hle rows fills hr hf) hle,
    zipWith_append_take bpr rows fills hr hlen]

/-- C5 witness: two 2-byte rows padded to 3 bytes with filler and
recovered. -/
theorem depad_padRows_roundtrip_witness :
    (∀ r ∈ [[1, 2], [3, 4]], List.length r = 2) ∧
    (∀ f ∈ [[9], [8]], List.length f = 3 - 2) ∧
    List.length [[1, 2], [3, 4]] = List.length [[9], [8]] ∧ 2 ≤ 3 ∧
    depad 2 3 (padRows [[1, 2], [3, 4]] [[9], [8]]) =
      List.flatten [[1, 2], [3, 4]] :=
  ⟨by decide, by decide, by decide, by decide,
    depad_padRows_roundtrip 2 3 [[1, 2], [3, 4]] [[9], [8]]
      (by decide) (by decide) (by decide) (by decide)⟩

/-- C6: identity case — whenever bytes_per_row equals padded_bytes_per_row
the depadding step returns its input unchanged (the code takes the
pass-through branch and performs no per-row copy). -/
theorem depad_identity (padded : Nat) (raw : List Nat) :
    depad padded padded raw = raw := by
  simp [depad]

/-- C10: totality of the depadding loop — whenever the raw buffer length
is padded_bytes_per_row times height and bytes_per_row is at most
padded_bytes_per_row, every chunk produced by the
chunks(padded_bytes_per_row) iteration has length exactly
padded_bytes_per_row, so taking the first bytes_per_row bytes of a chunk
is always in bounds (the slice panic branch is unreachable). -/
theorem depad_loop_total (bpr padded height : Nat) (raw : List Nat)
    (hlen : raw.length = padded * height) (hle : bpr ≤ padded) :
    ∀ c ∈ chunksList padded raw, c.length = padded ∧
      bpr ≤ c.length ∧ (c.take bpr).length = bpr := by
  intro c hc
  have h1 := chunksList_length_eq padded height raw hlen c hc
  refine ⟨h1, by omega, ?_⟩
  rw [List.length_take, h1]
  omega

/-- C10 witness: the theorem applied to the 1024-byte buffer of the 4x4
scenario. -/
theorem depad_loop_total_witness :
    exRows.flatten.length = 256 * 4 ∧ 16 ≤ 256 ∧
    (∀ c ∈ chunksList 256 exRows.flatten, c.length = 256 ∧
      16 ≤ c.length ∧ (c.take 16).length = 16) :=
  ⟨by decide, by decide, depad_loop_total 16 256 4 exRows.flatten (by decide) (by decide)⟩

/-- C2 counterexample: with a prepared source present, a backend mapping
failure makes get_image panic (the double unwrap at src/plugin.rs
line 139); it does not return None.  This falsifies the claim that on
mapping failure the readback returns None without panicking. -/
theorem get_image_mapping_failure_panics :
    getImage (some prep0) (Except.error "map failed") [] = ReadResult.panicked ∧
    getImage (some prep0) (Except.error "map failed") [] ≠ ReadResult.ok none := by
  refine ⟨rfl, ?_⟩
  decide

/-- C2 amended: when the backend reports failure of the buffer-map request
get_image panics rather than returning None; get_image returns None
exactly when the export source has no prepared buffer (in which case no
mapping is attempted at all), and on mapping success it returns the
depadded image. -/
theorem get_image_mapping_failure_behavior :
    (∀ (g : GpuImageExportSource) (e : String) (mapped : List Nat),
      getImage (some g) (Except.error e) mapped = ReadResult.panicked) ∧
    (∀ (mr : Except String Unit) (mapped : List Nat),
      getImage none mr mapped = ReadResult.ok none) ∧
    (∀ (g : GpuImageExportSource) (mapped : List Nat),
      getImage (some g) (Except.ok ()) mapped =
        ReadResult.ok (some
          { data := depad g.bytesPerRow g.paddedBytesPerRow mapped
            width := g.sourceWidth
            height := g.sourceHeight })) :=
  ⟨fun _ _ _ => rfl, fun mr _ => by cases mr <;> rfl, fun _ _ => rfl⟩

/-- C3 counterexample: when the backing source texture is absent from the
image asset table, prepare_asset panics (the unwrap at src/plugin.rs
line 54); it has no error-return path for a missing texture.  This
falsifies the claim that it returns an Error (SourceTextureMissing)
rather than panicking. -/
theorem prepare_asset_missing_texture_panics :
    prepareAsset none = PrepareResult.panicked := rfl

/-- C3 amended: prepare_asset panics when the source texture is missing
from the image asset table; when the texture is present it returns Ok
with bytes_per_row computed from the pixel format block layout and the
width, and padded_bytes_per_row computed by align_copy_bytes_per_row
(rounding up to the 256-byte device alignment), provided the u32
arithmetic does not wrap. -/
theorem prepare_asset_present_texture (gi : GpuImage)
    (h1 : gi.width / gi.blockDimX * gi.blockSize < U32)
    (h2 : alignCopyBytesPerRow (gi.width / gi.blockDimX * gi.blockSize) < U32) :
    ∃ g, prepareAsset (some gi) = PrepareResult.ok g ∧
      g.bytesPerRow = gi.width / gi.blockDimX * gi.blockSize ∧
      g.paddedBytesPerRow = alignCopyBytesPerRow g.bytesPerRow := by
  have hb : gi.width / gi.blockDimX * gi.blockSize % U32 =
      gi.width / gi.blockDimX * gi.blockSize := Nat.mod_eq_of_lt h1
  refine ⟨_, rfl, hb, ?_⟩
  show alignCopyBytesPerRow (gi.width / gi.blockDimX * gi.blockSize % U32) % U32 =
    alignCopyBytesPerRow (gi.width / gi.blockDimX * gi.blockSize % U32)
  rw [hb]
  exact Nat.mod_eq_of_lt h2

/-- C3 witness: the amended theorem applied to the 4x4 Rgba8 texture. -/
theorem prepare_asset_present_texture_witness :
    gi0.width / gi0.blockDimX * gi0.blockSize < U32 ∧
    alignCopyBytesPerRow (gi0.width / gi0.blockDimX * gi0.blockSize) < U32 ∧
    ∃ g, prepareAsset (some gi0) = PrepareResult.ok g ∧
      g.bytesPerRow = gi0.width / gi0.blockDimX * gi0.blockSize ∧
      g.paddedBytesPerRow = alignCopyBytesPerRow g.bytesPerRow :=
  ⟨by decide, by decide, prepare_asset_present_texture gi0 (by decide) (by decide)⟩

/-- C4: every prepared export buffer satisfies padded_bytes_per_row at
least bytes_per_row, padded_bytes_per_row the smallest multiple of the
256-byte device row alignment that is at least bytes_per_row, and the
allocated staging buffer size exactly padded_bytes_per_row times the
source height — under the side conditions that the u32 products involved
do not wrap. -/
theorem prepared_buffer_invariants (gi : GpuImage) (g : GpuImageExportSource)
    (hprep : prepareAsset (some gi) = PrepareResult.ok g)
    (h1 : gi.width / gi.blockDimX * gi.blockSize < U32)
    (h2 : alignCopyBytesPerRow (gi.width / gi.blockDimX * gi.blockSize) < U32)
    (h3 : gi.height * alignCopyBytesPerRow (gi.width / gi.blockDimX * gi.blockSize) < U32) :
    g.bytesPerRow ≤ g.paddedBytesPerRow ∧
    g.paddedBytesPerRow % COPY_ALIGN = 0 ∧
    (∀ m, m % COPY_ALIGN = 0 → g.bytesPerRow ≤ m → g.paddedBytesPerRow ≤ m) ∧
    g.bufferSize = g.paddedBytesPerRow * gi.height := by
  have hb : gi.width / gi.blockDimX * gi.blockSize % U32 =
      gi.width / gi.blockDimX * gi.blockSize := Nat.mod_eq_of_lt h1
  unfold prepareAsset at hprep
  injection hprep with hg
  subst hg
  refine ⟨?_, ?_, ?_, ?_⟩
  · show gi.width / gi.blockDimX * gi.blockSize % U32 ≤
      alignCopyBytesPerRow (gi.width / gi.blockDimX * gi.blockSize % U32) % U32
    rw [hb, Nat.mod_eq_of_lt h2]
    exact le_alignCopyBytesPerRow _
  · show alignCopyBytesPerRow (gi.width / gi.blockDimX * gi.blockSize % U32) % U32 %
      COPY_ALIGN = 0
    rw [hb, Nat.mod_eq_of_lt h2]
    exact alignCopyBytesPerRow_mod _
  · intro m hm hbm
    show alignCopyBytesPerRow (gi.width / gi.blockDimX * gi.blockSize % U32) % U32 ≤ m
    rw [hb, Nat.mod_eq_of_lt h2]
    refine alignCopyBytesPerRow_min _ m hm ?_
    rw [hb] at hbm
    exact hbm
  · show gi.height *
        (alignCopyBytesPerRow (gi.width / gi.blockDimX * gi.blockSize % U32) % U32) % U32 =
      alignCopyBytesPerRow (gi.width / gi.blockDimX * gi.blockSize % U32) % U32 * gi.height
    rw [hb, Nat.mod_eq_of_lt h2, Nat.mod_eq_of_lt h3, Nat.mul_comm]

/-- C4 witness: the invariants instantiated on the 4x4 Rgba8 texture,
whose prepared buffer has bytes_per_row 16, padded_bytes_per_row 256 and
buffer size 1024. -/
theorem prepared_buffer_invariants_witness :
    prepareAsset (some gi0) = PrepareResult.ok prep0 ∧
    gi0.width / gi0.blockDimX * gi0.blockSize < U32 ∧
    alignCopyBytesPerRow (gi0.width / gi0.blockDimX * gi0.blockSize) < U32 ∧
    gi0.height * alignCopyBytesPerRow (gi0.width / gi0.blockDimX * gi0.blockSize) < U32 ∧
    (prep0.bytesPerRow ≤ prep0.paddedBytesPerRow ∧
      prep0.paddedBytesPerRow % COPY_ALIGN = 0 ∧
      (∀ m, m % COPY_ALIGN = 0 → prep0.bytesPerRow ≤ m → prep0.paddedBytesPerRow ≤ m) ∧
      prep0.bufferSize = prep0.paddedBytesPerRow * gi0.height) :=
  ⟨by decide, by decide, by decide, by decide,
    prepared_buffer_invariants gi0 prep0 (by decide) (by decide) (by decide) (by decide)⟩

/-- C7: rate limiting — in every invocation of ndi_send_buffer in which
the rate-limit timer's interval has not just elapsed, no consumer acts
(no frame is saved, built or sent: the action list is empty); and a
consumer gated by the 1-second repeating timer, fed frames at 60 per
second (16666667 ns deltas), opens its gate at most twice in 120 frames
and at most 10 times in 600 frames — at most once per roughly 60
frames. -/
theorem ndi_rate_limiting :
    (∀ (t : RTimer) (d : Nat) (steps : List BindingStep),
      (t.tick d).justFinished = false → (ndiSendBuffer t d steps).2 = []) ∧
    dispatchCount timer0 (List.replicate 120 16666667) ≤ 2 ∧
    dispatchCount timer0 (List.replicate 600 16666667) ≤ 10 := by
  refine ⟨?_, ?_, ?_⟩
  · intro t d steps h
    simp [ndiSendBuffer, h]
  · calc dispatchCount timer0 (List.replicate 120 16666667)
        ≤ finishCount timer0 (List.replicate 120 16666667) :=
          dispatchCount_le_finishCount _ _
      _ = (timer0.elapsed + (List.replicate 120 16666667).sum) / timer0.duration :=
          finishCount_eq _ _ (by decide) (by decide)
      _ ≤ 2 := by rw [List.sum_const_nat]; decide
  · calc dispatchCount timer0 (List.replicate 600 16666667)
        ≤ finishCount timer0 (List.replicate 600 16666667) :=
          dispatchCount_le_finishCount _ _
      _ = (timer0.elapsed + (List.replicate 600 16666667).sum) / timer0.duration :=
          finishCount_eq _ _ (by decide) (by decide)
      _ ≤ 10 := by rw [List.sum_const_nat]; decide

/-- C7 witness: a fresh 1-second timer ticked by a 60 fps delta does not
finish, and the invocation produces no actions for the bindings of the
4x4 scenario. -/
theorem ndi_rate_limiting_witness :
    (timer0.tick 16666667).justFinished = false ∧
    (ndiSendBuffer timer0 16666667 [stepFail, stepOk]).2 = [] :=
  ⟨by decide, ndi_rate_limiting.1 timer0 16666667 [stepFail, stepOk] (by decide)⟩

/-- C8 counterexample: the rate-limit timer state gating distinct NDI
consumer bindings is NOT independent per binding — there is a single
shared NDIExportRateLimiter resource.  At the concrete state w0 with two
distinct bindings 0 and 1, the tick performed when the system evaluates
the gate (which gates binding 0) changes the timer state that gates
binding 1. -/
theorem gate_timer_not_independent :
    (0 : Nat) ≠ 1 ∧
    gateTimer (tickWorld w0 500000000) 1 ≠ gateTimer w0 1 := by
  refine ⟨by decide, ?_⟩
  decide

/-- C8 amended: all NDI consumer bindings are gated by one shared global
rate-limit timer: the timer state gating any two bindings is the same,
the per-invocation tick updates the gate of every binding identically,
and within one invocation the dispatch decision is common to all
bindings — either the gate just finished and the loop runs, or no
binding acts at all. -/
theorem gate_timer_shared :
    (∀ (w : NdiWorld) (i j : Nat), gateTimer w i = gateTimer w j) ∧
    (∀ (w : NdiWorld) (delta : Nat) (i j : Nat),
      gateTimer (tickWorld w delta) j = (gateTimer w i).tick delta) ∧
    (∀ (t : RTimer) (d : Nat) (steps : List BindingStep),
      (ndiSendBuffer t d steps).2 = [] ∨
        ((t.tick d).justFinished = true ∧
          (ndiSendBuffer t d steps).2 = ndiLoop steps)) := by
  refine ⟨fun w i j => rfl, fun w delta i j => rfl, ?_⟩
  intro t d steps
  by_cases h : (t.tick d).justFinished
  · right
    exact ⟨h, by simp [ndiSendBuffer, h]⟩
  · left
    simp [ndiSendBuffer, h]

/-- C9 counterexample: with two bindings whose sources are ready, a frame
build failure for the first binding makes ndi_send_buffer return early
(src/ndi.rs line 96): the invocation logs the failure and stops, and the
second binding's frame is never sent that invocation.  This falsifies
the claim that processing of the remaining bindings still occurs. -/
theorem build_failure_aborts_invocation :
    ndiLoop [stepFail, stepOk] =
      [NdiAction.savedDebugPng, NdiAction.logBuildFailure "bad frame"] ∧
    NdiAction.sent 4 4 (List.replicate 64 0) ∉ ndiLoop [stepFail, stepOk] := by
  refine ⟨rfl, ?_⟩
  decide

/-- C9 amended: when frame construction fails for a binding, the failure
is logged, that binding's frame is dropped and nothing is sent for it,
no error propagates to the caller (the system still returns an ordinary
action list), but the invocation returns early: the bindings after the
failing one are not processed in that same invocation (the produced
actions do not depend on them). -/
theorem build_failure_behavior (s : BindingStep) (img : ImageOut) (e : String)
    (rest : List BindingStep) (himg : s.img = some img)
    (herr : s.buildErr = some e) :
    ndiLoop (s :: rest) =
      [NdiAction.savedDebugPng, NdiAction.logBuildFailure e] := by
  simp [ndiLoop, himg, herr]

/-- C9 witness: the amended theorem applied to the failing binding
followed by a healthy one. -/
theorem build_failure_behavior_witness :
    stepFail.img = some imgA ∧ stepFail.buildErr = some "bad frame" ∧
    ndiLoop [stepFail, stepOk] =
      [NdiAction.savedDebugPng, NdiAction.logBuildFailure "bad frame"] :=
  ⟨rfl, rfl, build_failure_behavior stepFail imgA "bad frame" [stepOk] rfl rfl⟩
